import Mathlib

/-!
Verification of the CLI query-dispatcher scripts of the pg-graph-doc
repository, shallowly embedded in Lean 4.

The embedded code:
  * `run-mongo.js` — argv tokenizer, alias resolution, validation,
    find / insert dispatch against a MongoDB-wire backend, and the
    `try`/`finally` connection lifecycle (including the fact that
    `process.exit` inside the `try` block terminates the Node process
    without running the `finally` block).
  * the `run-docdb.js`-style variant (src/unnamed/part_001) — its argv
    tokenizer, which consumes the next token as a flag value only when
    that token is truthy (non-empty).
  * the index-capable run-mongo variant (src/unnamed/part_003, first
    section) — create-index / insert / find dispatch.
  * the legacy run-mongo variant (src/unnamed/part_003, last section) —
    a find that inserts a sample document when the query is empty.

JS strings, objects and JSON values are modelled executably: strings as
Lean `String` / `List Char`, objects as insertion-ordered association
lists, `JSON.parse` as a fuel-based recursive-descent parser over the
JSON subset the scripts exercise (numbers are sign + digits + optional
fraction; string escapes cover the single-character escapes), and
`Number(...)` as a decimal reader returning `Option Rat` (`none` models
`NaN`).  The backing service is modelled as a per-collection list of
documents with a deterministic find (query/projection/sort are
forwarded verbatim in the recorded request; the model backend returns
the collection contents capped at the limit).
-/

set_option autoImplicit false

namespace PgGraphDoc

/-! ## JS object model: insertion-ordered association lists -/

/-- A JS object with string values (the `flags` object of the scripts):
insertion-ordered association list with unique keys. -/
abbrev Flags := List (String × String)

/-- Model of JS property read `o[k]`: `none` models `undefined`. -/
def getFlag : Flags → String → Option String
  | [], _ => none
  | (k', v') :: rest, k => if k' = k then some v' else getFlag rest k

/-- Model of JS property write `o[k] = v`: overwrite in place, else append. -/
def setFlag : Flags → String → String → Flags
  | [], k, v => [(k, v)]
  | (k', v') :: rest, k, v =>
    if k' = k then (k, v) :: rest else (k', v') :: setFlag rest k v

/-- Model of JS `delete o[k]`. -/
def delFlag (f : Flags) (k : String) : Flags :=
  f.filter (fun kv => kv.1 ≠ k)

@[simp] theorem getFlag_setFlag (f : Flags) (k v k' : String) :
    getFlag (setFlag f k v) k' = if k = k' then some v else getFlag f k' := by
  induction f with
  | nil => simp [setFlag, getFlag]
  | cons kv rest ih =>
    obtain ⟨k0, v0⟩ := kv
    simp only [setFlag]
    by_cases h0 : k0 = k
    · subst h0
      by_cases h : k0 = k' <;> simp [getFlag, h]
    · simp only [if_neg h0, getFlag, ih]
      by_cases h1 : k0 = k'
      · have h2 : ¬ k = k' := fun h => h0 (h1.trans h.symm)
        simp [h1, h2]
      · simp [h1]

@[simp] theorem getFlag_delFlag (f : Flags) (k k' : String) :
    getFlag (delFlag f k) k' = if k = k' then none else getFlag f k' := by
  induction f with
  | nil => simp [delFlag, getFlag]
  | cons kv rest ih =>
    obtain ⟨k0, v0⟩ := kv
    by_cases h0 : k0 = k
    · subst h0
      have hd : delFlag ((k0, v0) :: rest) k0 = delFlag rest k0 := by
        simp [delFlag, List.filter_cons]
      rw [hd, ih]
      by_cases h : k0 = k' <;> simp [getFlag, h]
    · have hd : delFlag ((k0, v0) :: rest) k = (k0, v0) :: delFlag rest k := by
        simp [delFlag, List.filter_cons, h0]
      rw [hd]
      by_cases h1 : k0 = k'
      · have h2 : ¬ k = k' := fun h => h0 (h1.trans h.symm)
        simp [getFlag, h1, h2]
      · simp [getFlag, h1, ih]

/-- JS string truthiness for `Option String` values: `undefined` and the
empty string are falsy. -/
def truthyS : Option String → Bool
  | none => false
  | some s => s ≠ ""

/-- Model of JS `a || b` on possibly-undefined strings. -/
def jsOr (a b : Option String) : Option String :=
  if truthyS a then a else b

/-- Model of JS `a || b || d` where `d` is a string default. -/
def jsOrDefault (a b : Option String) (d : String) : String :=
  match jsOr (jsOr a b) (some d) with
  | some s => s
  | none => d

/-! ## Character-level helpers for the argv tokenizers -/

/-- Model of JS `s.startsWith("-")`. -/
def startsWithDash (s : String) : Bool :=
  match s.data with
  | c :: _ => c = '-'
  | [] => false

/-- Model of JS `s.startsWith("--")`. -/
def startsWithDashDash (s : String) : Bool :=
  match s.data with
  | c1 :: c2 :: _ => c1 = '-' ∧ c2 = '-'
  | _ => false

theorem dashdash_implies_dash (s : String) :
    startsWithDashDash s = true → startsWithDash s = true := by
  unfold startsWithDashDash startsWithDash
  match s.data with
  | [] => simp
  | [c] => simp
  | c1 :: c2 :: r => simp; intro h _; exact h

theorem dash_or_collapse (s : String) :
    (startsWithDashDash s || startsWithDash s) = startsWithDash s := by
  cases h : startsWithDashDash s
  · simp
  · simp [dashdash_implies_dash s h]

/-- Model of JS `arg.split("=")`: the first segment and the remaining
segments (the JS result is the nonempty list `fst :: snd`). -/
def splitSegs : List Char → List Char × List (List Char)
  | [] => ([], [])
  | c :: cs =>
    let (h, t) := splitSegs cs
    if c = '=' then ([], h :: t) else (c :: h, t)

/-- Model of JS `parts.join("=")`. -/
def joinSegs : List (List Char) → List Char
  | [] => []
  | [x] => x
  | x :: xs => x ++ '=' :: joinSegs xs

/-- Model of the JS regex replace `key.replace(/^--?/, "")` (the regex is
greedy, so two leading dashes are stripped when present, else one). -/
def stripDashes : List Char → List Char
  | '-' :: '-' :: r => r
  | '-' :: r => r
  | r => r

theorem splitSegs_fst (l : List Char) :
    (splitSegs l).1 = l.takeWhile (fun c => c ≠ '=') := by
  induction l with
  | nil => rfl
  | cons c cs ih =>
    simp only [splitSegs, List.takeWhile]
    by_cases h : c = '='
    · subst h; simp
    · simp [h, ih]

theorem splitSegs_snd_nil (l : List Char) :
    (splitSegs l).2 = [] ↔ l.contains '=' = false := by
  induction l with
  | nil => simp [splitSegs]
  | cons c cs ih =>
    simp only [splitSegs]
    by_cases h : c = '='
    · subst h; simp
    · simpa [h, List.contains_cons, Ne.symm h] using ih

theorem joinSegs_splitSegs (l : List Char) :
    joinSegs ((splitSegs l).1 :: (splitSegs l).2) = l := by
  induction l with
  | nil => rfl
  | cons c cs ih =>
    simp only [splitSegs]
    by_cases h : c = '='
    · subst h
      simp only [if_pos rfl]
      cases hs : (splitSegs cs).2 with
      | nil => simpa [joinSegs, hs] using ih
      | cons x xs => simpa [joinSegs, hs] using ih
    · simp only [if_neg h]
      cases hs : (splitSegs cs).2 with
      | nil => simpa [joinSegs, hs] using ih
      | cons x xs => simpa [joinSegs, hs] using ih

theorem joinSegs_splitSegs_snd (l : List Char) (h : l.contains '=' = true) :
    joinSegs (splitSegs l).2 = (l.dropWhile (fun c => c ≠ '=')).drop 1 := by
  induction l with
  | nil => simp at h
  | cons c cs ih =>
    by_cases hc : c = '='
    · subst hc
      simp only [splitSegs, if_pos rfl, List.dropWhile]
      simpa using joinSegs_splitSegs cs
    · have hcs : cs.contains '=' = true := by
        simp [List.contains_cons, Ne.symm hc] at h
        simpa using h
      simp only [splitSegs, if_neg hc, List.dropWhile]
      simp [hc, ih hcs]

/-! ## The argv tokenizer of `run-mongo.js` (lines 12–33)

The JS loop walks `argv` with an index `i` that advances by two when a
flag consumes the next token as its value; the accumulator `ps` models
the `positionals` array (built in reverse, reversed at the end so the
recursion is tail-like).  `cleanKey` is computed from the first segment
of `arg.split("=")` exactly as in the source. -/

def parseArgsGo : List String → Flags → List String → Flags × List String
  | [], fl, ps => (fl, ps.reverse)
  | [a], fl, ps =>
    if startsWithDashDash a || startsWithDash a then
      if (splitSegs a.data).2 ≠ [] then
        (setFlag fl (String.mk (stripDashes (splitSegs a.data).1))
          (String.mk (joinSegs (splitSegs a.data).2)), ps.reverse)
      else
        (setFlag fl (String.mk (stripDashes (splitSegs a.data).1)) "true",
          ps.reverse)
    else (fl, (a :: ps).reverse)
  | a :: next :: rest2, fl, ps =>
    if startsWithDashDash a || startsWithDash a then
      if (splitSegs a.data).2 ≠ [] then
        parseArgsGo (next :: rest2)
          (setFlag fl (String.mk (stripDashes (splitSegs a.data).1))
            (String.mk (joinSegs (splitSegs a.data).2))) ps
      else
        if ¬ startsWithDash next then
          parseArgsGo rest2
            (setFlag fl (String.mk (stripDashes (splitSegs a.data).1)) next) ps
        else
          parseArgsGo (next :: rest2)
            (setFlag fl (String.mk (stripDashes (splitSegs a.data).1)) "true") ps
    else
      parseArgsGo (next :: rest2) fl (a :: ps)

/-- The tokenizer of `run-mongo.js` applied to `process.argv.slice(2)`. -/
def parseArgs (argv : List String) : Flags × List String :=
  parseArgsGo argv [] []

/-! ## The argv tokenizer of the docdb variant (src/unnamed/part_001,
lines 12–35; identical in the first section of src/unnamed/part_003).
It checks `arg.includes("=")` before splitting, and consumes the next
token only when `nextArg` is truthy, i.e. non-empty, as well as not
starting with a dash. -/

def parseDocGo : List String → Flags → List String → Flags × List String
  | [], fl, ps => (fl, ps.reverse)
  | [a], fl, ps =>
    if startsWithDashDash a || startsWithDash a then
      if a.data.contains '=' then
        (setFlag fl (String.mk (stripDashes (splitSegs a.data).1))
          (String.mk (joinSegs (splitSegs a.data).2)), ps.reverse)
      else
        (setFlag fl (String.mk (stripDashes a.data)) "true", ps.reverse)
    else (fl, (a :: ps).reverse)
  | a :: next :: rest2, fl, ps =>
    if startsWithDashDash a || startsWithDash a then
      if a.data.contains '=' then
        parseDocGo (next :: rest2)
          (setFlag fl (String.mk (stripDashes (splitSegs a.data).1))
            (String.mk (joinSegs (splitSegs a.data).2))) ps
      else
        if next ≠ "" ∧ ¬ startsWithDash next then
          parseDocGo rest2 (setFlag fl (String.mk (stripDashes a.data)) next) ps
        else
          parseDocGo (next :: rest2)
            (setFlag fl (String.mk (stripDashes a.data)) "true") ps
    else
      parseDocGo (next :: rest2) fl (a :: ps)

/-- The tokenizer of the docdb variant. -/
def parseArgsDoc (argv : List String) : Flags × List String :=
  parseDocGo argv [] []

/-! ## Spec-level tokenizers, written from the claim wording -/

/-- Written from the spec: "the key has its leading dashes stripped"
(the dashes of the flag prefix, `-` or `--`). -/
def specStripDashes (l : List Char) : List Char :=
  l.drop (if l.take 2 = ['-', '-'] then 2 else if l.take 1 = ['-'] then 1 else 0)

/-- Written from the spec: "a flag token containing `=` splits into
`key=value` at the first `=`": the key is everything before the first
`=`, the value is the remainder (later `=` characters included). -/
def specKeyVal (l : List Char) : List Char × List Char :=
  (l.takeWhile (fun c => c ≠ '='), (l.dropWhile (fun c => c ≠ '=')).drop 1)

/-- Written from the spec / claim C5: a token starting with `-` is a
flag token; with `=` it splits at the first `=`; without `=` it consumes
the next token as its value if that token exists and does not start
with `-` (advancing by two), otherwise it is boolean-true (`"true"`);
other tokens are collected, in scan order, as positionals. -/
def parseSpec : List String → Flags → Flags × List String
  | [], fl => (fl, [])
  | [a], fl =>
    if startsWithDash a then
      if a.data.contains '=' then
        (setFlag fl (String.mk (specStripDashes (specKeyVal a.data).1))
          (String.mk (specKeyVal a.data).2), [])
      else (setFlag fl (String.mk (specStripDashes a.data)) "true", [])
    else (fl, [a])
  | a :: next :: rest2, fl =>
    if startsWithDash a then
      if a.data.contains '=' then
        parseSpec (next :: rest2)
          (setFlag fl (String.mk (specStripDashes (specKeyVal a.data).1))
            (String.mk (specKeyVal a.data).2))
      else
        if ¬ startsWithDash next then
          parseSpec rest2 (setFlag fl (String.mk (specStripDashes a.data)) next)
        else
          parseSpec (next :: rest2)
            (setFlag fl (String.mk (specStripDashes a.data)) "true")
    else
      ((parseSpec (next :: rest2) fl).1, a :: (parseSpec (next :: rest2) fl).2)

/-- The amended tokenizer rule for the docdb variant: a flag without `=`
consumes the next token only when it exists, is non-empty, and does not
start with `-`. -/
def parseSpecDoc : List String → Flags → Flags × List String
  | [], fl => (fl, [])
  | [a], fl =>
    if startsWithDash a then
      if a.data.contains '=' then
        (setFlag fl (String.mk (specStripDashes (specKeyVal a.data).1))
          (String.mk (specKeyVal a.data).2), [])
      else (setFlag fl (String.mk (specStripDashes a.data)) "true", [])
    else (fl, [a])
  | a :: next :: rest2, fl =>
    if startsWithDash a then
      if a.data.contains '=' then
        parseSpecDoc (next :: rest2)
          (setFlag fl (String.mk (specStripDashes (specKeyVal a.data).1))
            (String.mk (specKeyVal a.data).2))
      else
        if next ≠ "" ∧ ¬ startsWithDash next then
          parseSpecDoc rest2 (setFlag fl (String.mk (specStripDashes a.data)) next)
        else
          parseSpecDoc (next :: rest2)
            (setFlag fl (String.mk (specStripDashes a.data)) "true")
    else
      ((parseSpecDoc (next :: rest2) fl).1, a :: (parseSpecDoc (next :: rest2) fl).2)

theorem stripDashes_eq_spec (l : List Char) : stripDashes l = specStripDashes l := by
  cases l with
  | nil => rfl
  | cons c1 t =>
    by_cases h1 : c1 = '-'
    · subst h1
      cases t with
      | nil => simp [stripDashes, specStripDashes]
      | cons c2 t2 =>
        by_cases h2 : c2 = '-'
        · subst h2; simp [stripDashes, specStripDashes]
        · simp [stripDashes, specStripDashes, h2]
    · simp [stripDashes, specStripDashes, h1]

theorem key_eq_spec (l : List Char) :
    stripDashes (splitSegs l).1 = specStripDashes (specKeyVal l).1 := by
  rw [splitSegs_fst, stripDashes_eq_spec]; rfl

theorem val_eq_spec (l : List Char) (h : l.contains '=' = true) :
    joinSegs (splitSegs l).2 = (specKeyVal l).2 :=
  joinSegs_splitSegs_snd l h


theorem splitSegs_fst_no_eq (l : List Char) (h : l.contains '=' = false) :
    (splitSegs l).1 = l := by
  rw [splitSegs_fst, List.takeWhile_eq_self_iff]
  intro x hx
  simp at h ⊢
  intro he
  subst he
  exact h hx

theorem parseArgsGo_eq_spec (args : List String) (fl : Flags) (ps : List String) :
    parseArgsGo args fl ps = ((parseSpec args fl).1, ps.reverse ++ (parseSpec args fl).2) := by
  induction args, fl, ps using parseArgsGo.induct with
  | case1 fl ps => simp [parseArgsGo, parseSpec]
  | case2 a fl ps hdash hne =>
    rw [dash_or_collapse] at hdash
    have hc : a.data.contains '=' = true := by
      cases h : a.data.contains '='
      · exact absurd ((splitSegs_snd_nil _).mpr h) hne
      · rfl
    rw [parseArgsGo.eq_def, parseSpec.eq_def]
    simp only [hdash, hc, hne, Bool.or_true, ite_true, if_true]
    rw [key_eq_spec, val_eq_spec a.data hc]
    simp [hne]
  | case3 a fl ps hdash hne2 =>
    rw [dash_or_collapse] at hdash
    have hsplit : (splitSegs a.data).2 = [] := not_not.mp hne2
    have hc : a.data.contains '=' = false := (splitSegs_snd_nil _).mp hsplit
    rw [parseArgsGo.eq_def, parseSpec.eq_def]
    simp only [hdash, hc, hsplit, Bool.or_true, ite_true, if_true,
      Bool.false_eq_true, if_false, ite_false, ne_eq, not_true_eq_false,
      not_false_eq_true]
    rw [splitSegs_fst_no_eq a.data hc, stripDashes_eq_spec]
    simp
  | case4 a fl ps hdash =>
    rw [dash_or_collapse] at hdash
    have hd : startsWithDash a = false := by
      cases h : startsWithDash a
      · rfl
      · exact absurd h hdash
    have hdd : startsWithDashDash a = false := by
      cases h : startsWithDashDash a
      · rfl
      · exact absurd (dashdash_implies_dash a h) (by simp [hd])
    rw [parseArgsGo.eq_def, parseSpec.eq_def]
    simp [hd, hdd]
  | case5 a next rest2 fl ps hdash hne ih =>
    rw [dash_or_collapse] at hdash
    have hc : a.data.contains '=' = true := by
      cases h : a.data.contains '='
      · exact absurd ((splitSegs_snd_nil _).mpr h) hne
      · rfl
    rw [parseArgsGo.eq_def, parseSpec.eq_def]
    simp only [hdash, hc, hne, Bool.or_true, ite_true, if_true]
    rw [key_eq_spec, val_eq_spec a.data hc] at ih ⊢
    simp [hne, ih]
  | case6 a next rest2 fl ps hdash hne2 hnext ih =>
    rw [dash_or_collapse] at hdash
    have hsplit : (splitSegs a.data).2 = [] := not_not.mp hne2
    have hc : a.data.contains '=' = false := (splitSegs_snd_nil _).mp hsplit
    rw [parseArgsGo.eq_def, parseSpec.eq_def]
    simp only [hdash, hc, hsplit, hnext, Bool.or_true, ite_true, if_true,
      Bool.false_eq_true, if_false, ite_false, ne_eq, not_true_eq_false,
      not_false_eq_true]
    rw [splitSegs_fst_no_eq a.data hc, stripDashes_eq_spec] at ih ⊢
    simp [hnext, ih]
  | case7 a next rest2 fl ps hdash hne2 hnext ih =>
    rw [dash_or_collapse] at hdash
    have hsplit : (splitSegs a.data).2 = [] := not_not.mp hne2
    have hc : a.data.contains '=' = false := (splitSegs_snd_nil _).mp hsplit
    have hn : startsWithDash next = true := not_not.mp hnext
    rw [parseArgsGo.eq_def, parseSpec.eq_def]
    simp only [hdash, hc, hn, hsplit, Bool.or_true, ite_true, if_true,
      Bool.false_eq_true, if_false, ite_false, ne_eq, not_true_eq_false,
      not_false_eq_true]
    rw [splitSegs_fst_no_eq a.data hc, stripDashes_eq_spec] at ih ⊢
    simp [ih]
  | case8 a next rest2 fl ps hdash ih =>
    rw [dash_or_collapse] at hdash
    have hd : startsWithDash a = false := by
      cases h : startsWithDash a
      · rfl
      · exact absurd h hdash
    have hdd : startsWithDashDash a = false := by
      cases h : startsWithDashDash a
      · rfl
      · exact absurd (dashdash_implies_dash a h) (by simp [hd])
    rw [parseArgsGo.eq_def, parseSpec.eq_def]
    simp only [hd, hdd, Bool.or_self, Bool.false_eq_true, if_false, ite_false]
    rw [ih]
    simp

theorem parseDocGo_eq_spec (args : List String) (fl : Flags) (ps : List String) :
    parseDocGo args fl ps = ((parseSpecDoc args fl).1, ps.reverse ++ (parseSpecDoc args fl).2) := by
  induction args, fl, ps using parseDocGo.induct with
  | case1 fl ps => simp [parseDocGo, parseSpecDoc]
  | case2 a fl ps hdash hc =>
    rw [dash_or_collapse] at hdash
    rw [parseDocGo.eq_def, parseSpecDoc.eq_def]
    simp only [hdash, hc, Bool.or_true, ite_true, if_true]
    rw [key_eq_spec, val_eq_spec a.data hc]
    simp
  | case3 a fl ps hdash hc =>
    rw [dash_or_collapse] at hdash
    have hcf : a.data.contains '=' = false := by
      cases h : a.data.contains '='
      · rfl
      · exact absurd h hc
    rw [parseDocGo.eq_def, parseSpecDoc.eq_def]
    simp only [hdash, hcf, Bool.or_true, ite_true, if_true,
      Bool.false_eq_true, if_false, ite_false]
    rw [stripDashes_eq_spec]
    simp
  | case4 a fl ps hdash =>
    rw [dash_or_collapse] at hdash
    have hd : startsWithDash a = false := by
      cases h : startsWithDash a
      · rfl
      · exact absurd h hdash
    have hdd : startsWithDashDash a = false := by
      cases h : startsWithDashDash a
      · rfl
      · exact absurd (dashdash_implies_dash a h) (by simp [hd])
    rw [parseDocGo.eq_def, parseSpecDoc.eq_def]
    simp [hd, hdd]
  | case5 a next rest2 fl ps hdash hc ih =>
    rw [dash_or_collapse] at hdash
    rw [parseDocGo.eq_def, parseSpecDoc.eq_def]
    simp only [hdash, hc, Bool.or_true, ite_true, if_true]
    rw [key_eq_spec, val_eq_spec a.data hc] at ih ⊢
    simp [ih]
  | case6 a next rest2 fl ps hdash hc hnext ih =>
    rw [dash_or_collapse] at hdash
    have hcf : a.data.contains '=' = false := by
      cases h : a.data.contains '='
      · rfl
      · exact absurd h hc
    rw [parseDocGo.eq_def, parseSpecDoc.eq_def]
    simp only [hdash, hcf, hnext, Bool.or_true, ite_true, if_true,
      Bool.false_eq_true, if_false, ite_false, ne_eq, not_true_eq_false,
      not_false_eq_true]
    rw [stripDashes_eq_spec] at ih ⊢
    simp [hnext, ih]
  | case7 a next rest2 fl ps hdash hc hnext ih =>
    rw [dash_or_collapse] at hdash
    have hcf : a.data.contains '=' = false := by
      cases h : a.data.contains '='
      · rfl
      · exact absurd h hc
    rw [parseDocGo.eq_def, parseSpecDoc.eq_def]
    simp only [hdash, hcf, hnext, Bool.or_true, ite_true, if_true,
      Bool.false_eq_true, if_false, ite_false, ne_eq, not_true_eq_false,
      not_false_eq_true]
    rw [stripDashes_eq_spec] at ih ⊢
    simp [hnext, ih]
  | case8 a next rest2 fl ps hdash ih =>
    rw [dash_or_collapse] at hdash
    have hd : startsWithDash a = false := by
      cases h : startsWithDash a
      · rfl
      · exact absurd h hdash
    have hdd : startsWithDashDash a = false := by
      cases h : startsWithDashDash a
      · rfl
      · exact absurd (dashdash_implies_dash a h) (by simp [hd])
    rw [parseDocGo.eq_def, parseSpecDoc.eq_def]
    simp only [hd, hdd, Bool.or_self, Bool.false_eq_true, if_false, ite_false]
    rw [ih]
    simp

/-! ## Alias resolution of `run-mongo.js` (lines 36–52) -/

/-- The alias table of `run-mongo.js` (lines 36–44).  Note: there is no
`o` alias here; `o` → index-options exists only in the index-capable
variant, which reads `flags["index-options"] || flags.o` directly. -/
def aliasPairs : List (String × String) :=
  [("c", "collection"), ("q", "query"), ("p", "project"), ("s", "sort"),
   ("l", "limit"), ("i", "insert"), ("h", "help")]

/-- One step of the alias-resolution loop (lines 48–51): when the short
key is defined (`!== undefined`), the long key is assigned the short
key's value — overwriting any long-form value already present — and the
short key is deleted. -/
def aliasStep (fl : Flags) (p : String × String) : Flags :=
  match getFlag fl p.1 with
  | some v => delFlag (setFlag fl p.2 v) p.1
  | none => fl

/-- The alias-resolution loop (lines 47–52). -/
def resolveAliases (f : Flags) : Flags :=
  aliasPairs.foldl aliasStep f

def rawFlagsOf (argv : List String) : Flags := (parseArgs argv).1

def flagsOf (argv : List String) : Flags := resolveAliases (parseArgs argv).1

def positionalsOf (argv : List String) : List String := (parseArgs argv).2

/-! ## JSON values and `JSON.parse` -/

/-- JSON values as produced by `JSON.parse`.  Objects are
insertion-ordered association lists (duplicate keys in the input resolve
last-value-wins at the first occurrence's position, as in JS). -/
inductive Json where
  | null
  | bool (b : Bool)
  | num (q : Rat)
  | str (s : String)
  | arr (xs : List Json)
  | obj (fields : List (String × Json))

/-- A document: the field list of a JSON object. -/
abbrev Doc := List (String × Json)

/-- JS property read on a parsed object. -/
def lookupField : Doc → String → Option Json
  | [], _ => none
  | (k', v) :: rest, k => if k' = k then some v else lookupField rest k

/-- JS property write on a parsed object: overwrite in place, else append. -/
def setField : Doc → String → Json → Doc
  | [], k, v => [(k, v)]
  | (k', v') :: rest, k, v =>
    if k' = k then (k, v) :: rest else (k', v') :: setField rest k v

def quoteChar : Char := Char.ofNat 34

def backslashChar : Char := Char.ofNat 92

def lbraceChar : Char := Char.ofNat 123

def rbraceChar : Char := Char.ofNat 125

/-- Skip JSON whitespace. -/
def skipWs : List Char → List Char
  | c :: cs => if c = ' ' ∨ c = '\t' ∨ c = '\n' ∨ c = '\r' then skipWs cs else c :: cs
  | [] => []

/-- Single-character string escapes (`\n`, `\t`, `\r`; quote, backslash and
slash map to themselves).  `\u` escapes are not modelled (not exercised). -/
def unescapeChar (c : Char) : Char :=
  if c = 'n' then '\n' else if c = 't' then '\t' else if c = 'r' then '\r' else c

/-- Parse a JSON string body after the opening quote; returns the contents
and the remainder after the closing quote. -/
def parseStrBody : Nat → List Char → Option (List Char × List Char)
  | 0, _ => none
  | _ + 1, [] => none
  | fuel + 1, c :: cs =>
    if c = quoteChar then some ([], cs)
    else if c = backslashChar then
      match cs with
      | e :: cs2 =>
        match parseStrBody fuel cs2 with
        | some (s, r) => some (unescapeChar e :: s, r)
        | none => none
      | [] => none
    else
      match parseStrBody fuel cs with
      | some (s, r) => some (c :: s, r)
      | none => none

def isDigit (c : Char) : Bool := '0' ≤ c ∧ c ≤ '9'

def digitsVal (l : List Char) : Nat :=
  l.foldl (fun acc c => 10 * acc + (c.toNat - 48)) 0

/-- Leading decimal digits and the remainder. -/
def readDigits (l : List Char) : List Char × List Char :=
  (l.takeWhile isDigit, l.dropWhile isDigit)

/-- Parse a JSON number: optional minus, integer digits, optional fraction.
(The exponent form of the JSON grammar is not modelled; the scripts'
payloads do not use it.) -/
def parseNum (l : List Char) : Option (Rat × List Char) :=
  let (neg, l1) := match l with
    | '-' :: r => (true, r)
    | r => (false, r)
  match readDigits l1 with
  | ([], _) => none
  | (ds, r) =>
    let ip : Rat := (digitsVal ds : Nat)
    match r with
    | '.' :: r2 =>
      match readDigits r2 with
      | ([], _) => none
      | (fs, r3) =>
        let v := ip + (digitsVal fs : Rat) / ((10 : Rat) ^ fs.length)
        some (if neg then -v else v, r3)
    | _ => some (if neg then -ip else ip, r)

mutual

/-- Fuel-based recursive-descent JSON value parser (model of `JSON.parse`).
Returns the value and the unconsumed remainder. -/
def parseVal : Nat → List Char → Option (Json × List Char)
  | 0, _ => none
  | fuel + 1, l =>
    match skipWs l with
    | 'n' :: 'u' :: 'l' :: 'l' :: r => some (Json.null, r)
    | 't' :: 'r' :: 'u' :: 'e' :: r => some (Json.bool true, r)
    | 'f' :: 'a' :: 'l' :: 's' :: 'e' :: r => some (Json.bool false, r)
    | c :: cs =>
      if c = quoteChar then
        match parseStrBody (cs.length + 1) cs with
        | some (s, r) => some (Json.str (String.mk s), r)
        | none => none
      else if c = lbraceChar then parseObjBody fuel cs
      else if c = '[' then parseArrBody fuel cs
      else
        match parseNum (c :: cs) with
        | some (q, r) => some (Json.num q, r)
        | none => none
    | [] => none

/-- Object body after the opening brace. -/
def parseObjBody : Nat → List Char → Option (Json × List Char)
  | 0, _ => none
  | fuel + 1, l =>
    match skipWs l with
    | c :: cs =>
      if c = rbraceChar then some (Json.obj [], cs)
      else parseMembers fuel (c :: cs) []
    | [] => none

/-- Object members; duplicate keys resolve last-value-wins in place. -/
def parseMembers : Nat → List Char → List (String × Json) → Option (Json × List Char)
  | 0, _, _ => none
  | fuel + 1, l, acc =>
    match skipWs l with
    | c :: cs =>
      if c = quoteChar then
        match parseStrBody (cs.length + 1) cs with
        | some (k, r) =>
          match skipWs r with
          | ':' :: r2 =>
            match parseVal fuel r2 with
            | some (v, r3) =>
              match skipWs r3 with
              | ',' :: r4 => parseMembers fuel r4 (setField acc (String.mk k) v)
              | d :: r4 =>
                if d = rbraceChar then some (Json.obj (setField acc (String.mk k) v), r4)
                else none
              | [] => none
            | none => none
          | _ => none
        | none => none
      else none
    | [] => none

/-- Array body after the opening bracket. -/
def parseArrBody : Nat → List Char → Option (Json × List Char)
  | 0, _ => none
  | fuel + 1, l =>
    match skipWs l with
    | c :: cs =>
      if c = ']' then some (Json.arr [], cs)
      else parseItems fuel (c :: cs) []
    | [] => none

/-- Array items. -/
def parseItems : Nat → List Char → List Json → Option (Json × List Char)
  | 0, _, _ => none
  | fuel + 1, l, acc =>
    match parseVal fuel l with
    | some (v, r) =>
      match skipWs r with
      | ',' :: r2 => parseItems fuel r2 (acc ++ [v])
      | ']' :: r2 => some (Json.arr (acc ++ [v]), r2)
      | _ => none
    | none => none

end

/-- Model of `JSON.parse`: parse one value, allow trailing whitespace,
reject any other trailing input.  `none` models a thrown `SyntaxError`. -/
def jsonParse (s : String) : Option Json :=
  match parseVal (s.data.length * 3 + 8) s.data with
  | some (v, r) => if skipWs r = [] then some v else none
  | none => none

/-- The string literal of an empty JSON object, the scripts' default for
query and projection. -/
def emptyObjStr : String := "\x7b\x7d"

/-- Trim JSON-style whitespace from both ends. -/
def trimWs (l : List Char) : List Char :=
  ((skipWs ((skipWs l).reverse)).reverse)

/-- Model of JS `Number(s)` on the strings the scripts receive: optional
surrounding whitespace; the empty string converts to `0`; otherwise an
optional sign and decimal digits with an optional fraction part (`"5."`
and `".5"` included).  `none` models `NaN`.  Hexadecimal, exponent and
`Infinity` forms are not modelled (not exercised by the claims). -/
def jsNumber (s : String) : Option Rat :=
  match trimWs s.data with
  | [] => some 0
  | l =>
    let (neg, l1) := match l with
      | '-' :: r => (true, r)
      | '+' :: r => (false, r)
      | r => (false, r)
    let (ds, r1) := readDigits l1
    match r1 with
    | [] =>
      if ds ≠ [] then
        some (if neg then -(digitsVal ds : Rat) else (digitsVal ds : Rat))
      else none
    | '.' :: r2 =>
      let (fs, r3) := readDigits r2
      if r3 = [] ∧ (ds ≠ [] ∨ fs ≠ []) then
        let v := (digitsVal ds : Rat) + (digitsVal fs : Rat) / ((10 : Rat) ^ fs.length)
        some (if neg then -v else v)
      else none
    | _ => none

/-! ## The backend model -/

/-- The backend: per-collection document lists plus an id counter that
models server-assigned inserted ids. -/
structure Backend where
  colls : List (String × List Doc)
  nextId : Nat

def emptyBackend : Backend := ⟨[], 0⟩

def getColl : List (String × List Doc) → String → List Doc
  | [], _ => []
  | (n, ds) :: rest, c => if n = c then ds else getColl rest c

def putColl : List (String × List Doc) → String → List Doc → List (String × List Doc)
  | [], c, ds => [(c, ds)]
  | (n, ds0) :: rest, c, ds =>
    if n = c then (c, ds) :: rest else (n, ds0) :: putColl rest c ds

/-- `insertOne`: append the document, return the assigned id. -/
def Backend.insertDoc (b : Backend) (c : String) (d : Doc) : Backend × Nat :=
  (⟨putColl b.colls c (getColl b.colls c ++ [d]), b.nextId + 1⟩, b.nextId)

/-- The backend's answer to a find: the collection's documents capped at
the limit.  The query/projection/sort are forwarded verbatim in the
recorded request; the model backend is a deterministic pure function of
its state, which is what the idempotence claims need. -/
def Backend.findDocs (b : Backend) (c : String) (lim : Nat) : List Doc :=
  (getColl b.colls c).take lim

/-- Model of the server-assigned default index name (derived from the
index specification's keys); only its propagation into the `Ack` output
matters to the claims. -/
def indexNameOf : Json → String
  | Json.obj fields => String.intercalate "_" (fields.map (fun kv => kv.1))
  | _ => "idx"

/-! ## Requests, outputs, outcomes -/

inductive ReqKind where
  | find
  | insert
  | createIndex
deriving DecidableEq

/-- A single request issued to the backend, recorded verbatim. -/
inductive Req where
  | findR (coll : String) (query projection : Json) (sort : Option Json) (lim : Rat)
  | insertR (coll : String) (d : Doc)
  | indexR (coll : String) (spec opts : Json)

def Req.kind : Req → ReqKind
  | Req.findR .. => ReqKind.find
  | Req.insertR .. => ReqKind.insert
  | Req.indexR .. => ReqKind.createIndex

/-- A payload printed to standard output. -/
inductive Out where
  | docs (ds : List Doc)
  | ackId (id : Nat)
  | ackIndex (name : String)

def Out.docCount : Out → Nat
  | Out.docs ds => ds.length
  | _ => 0

/-- Observable outcome of one invocation: exit code, whether usage text
went to standard output, messages on standard error, how many times the
backend connection was opened and released, the requests issued, and the
payloads printed to standard output. -/
structure Outcome where
  exitCode : Nat
  helpShown : Bool
  stderrMsgs : List String
  connectCount : Nat
  closeCount : Nat
  requests : List Req
  outputs : List Out

/-! ## The `run-mongo.js` invocation model

Staged to mirror the source: help short-circuit (lines 55–87), collection
requirement (89–98), insert incompatibility checks (100–118), find
parameter resolution with the limit check (120–146), then
`new MongoClient` / `await client.connect()` (148–150) and the
`try`/`finally` body (152–208).  Outcomes constructed inside the body
have `connectCount = 1`; the `process.exit(1)` calls inside the `try`
(lines 163, 179, 186, 194) terminate the Node process without running
the `finally`, so those outcomes have `closeCount = 0`. -/

/-- The fields a parsed JSON value contributes when spread into an object
literal.  (The scripts' insert payloads are JSON objects; spreading a
primitive contributes no string-keyed fields.) -/
def objFields : Json → Doc
  | Json.obj fs => fs
  | _ => []

/-- Model of the object literal
`{...doc, created_at: doc.created_at ?? new Date().toISOString()}`
(run-mongo.js lines 166–169 and the part_003 variant lines 71–74): the
spread keeps every field of `doc` in place; the trailing `created_at`
entry overwrites the spread one (or is appended when absent); `??` takes
the fallback exactly when the property is `undefined` (absent) or `null`,
and keeps every other value, including `false`, `0` and `""`. -/
def spreadCreatedAt (fields : Doc) (now : String) : Doc :=
  setField fields "created_at"
    (match lookupField fields "created_at" with
     | none => Json.str now
     | some Json.null => Json.str now
     | some v => v)

/-- The find request and rendering (lines 198–204). -/
def rmFind (coll : String) (qj pj : Json) (sj : Option Json) (lim : Rat)
    (b : Backend) : Outcome × Backend :=
  (⟨0, false, [], 1, 1, [Req.findR coll qj pj sj lim],
    [Out.docs (b.findDocs coll lim.floor.toNat)]⟩, b)

/-- The `try` body (lines 152–205), entered after `await client.connect()`. -/
def rmBody (coll : String) (insertFlag : Option String)
    (query projection : String) (sortS : Option String) (lim : Rat)
    (now : String) (b : Backend) : Outcome × Backend :=
  match insertFlag with
  | some ins =>
    match jsonParse ins with
    | none => (⟨1, false, ["Error: Invalid JSON for --insert"], 1, 0, [], []⟩, b)
    | some j =>
      let d := spreadCreatedAt (objFields j) now
      let (b2, id) := b.insertDoc coll d
      (⟨0, false, [], 1, 1, [Req.insertR coll d], [Out.ackId id]⟩, b2)
  | none =>
    match jsonParse query with
    | none => (⟨1, false, ["Error: Invalid JSON for query"], 1, 0, [], []⟩, b)
    | some qj =>
      match jsonParse projection with
      | none => (⟨1, false, ["Error: Invalid JSON for projection"], 1, 0, [], []⟩, b)
      | some pj =>
        match sortS with
        | some ss =>
          match jsonParse ss with
          | none => (⟨1, false, ["Error: Invalid JSON for sort"], 1, 0, [], []⟩, b)
          | some sj => rmFind coll qj pj (some sj) lim b
        | none => rmFind coll qj pj none lim b

/-- Find-parameter resolution (lines 120–146): query and projection fall
back flag → positional → `"\x7b\x7d"` by JS `||` truthiness; `sort` is
kept only when truthy; a truthy `limit` is converted with `Number` and
rejected when `NaN` or `< 1` — before the connection is constructed. -/
def rmFindParams (coll : String) (flags : Flags) (pos : List String)
    (now : String) (b : Backend) : Outcome × Backend :=
  let query := jsOrDefault (getFlag flags "query") pos[1]? emptyObjStr
  let projection := jsOrDefault (getFlag flags "project") pos[2]? emptyObjStr
  let sortS := if truthyS (getFlag flags "sort") then getFlag flags "sort" else none
  if truthyS (getFlag flags "limit") then
    match jsNumber ((getFlag flags "limit").getD "") with
    | none => (⟨1, false, ["Error: --limit must be a positive number"], 0, 0, [], []⟩, b)
    | some q =>
      if q < 1 then
        (⟨1, false, ["Error: --limit must be a positive number"], 0, 0, [], []⟩, b)
      else rmBody coll none query projection sortS q now b
  else rmBody coll none query projection sortS 50 now b

/-- Mode selection (line 101): `isInsert` is `flags.insert !== undefined`;
find parameters are only computed when not inserting. -/
def rmValidated (coll : String) (flags : Flags) (pos : List String)
    (now : String) (b : Backend) : Outcome × Backend :=
  match getFlag flags "insert" with
  | some ins => rmBody coll (some ins) emptyObjStr emptyObjStr none 50 now b
  | none => rmFindParams coll flags pos now b

/-- Insert incompatibility checks (lines 104–118), before any connection. -/
def rmInsertChecks (coll : String) (flags : Flags) (pos : List String)
    (now : String) (b : Backend) : Outcome × Backend :=
  if (getFlag flags "insert").isSome then
    if (["query", "project", "sort", "limit"].filter
        (fun f => (getFlag flags f).isSome)) ≠ [] then
      (⟨1, false, ["Error: --insert cannot be used with query options"],
        0, 0, [], []⟩, b)
    else if pos.length > 1 then
      (⟨1, false,
        ["Error: --insert cannot be used with positional query or projection arguments"],
        0, 0, [], []⟩, b)
    else rmValidated coll flags pos now b
  else rmValidated coll flags pos now b

/-- Collection requirement (lines 89–98): `flags.collection || positionals[0]`
must be truthy, else exit 1 before any connection. -/
def rmWithFlags (flags : Flags) (pos : List String) (now : String)
    (b : Backend) : Outcome × Backend :=
  if truthyS (jsOr (getFlag flags "collection") pos[0]?) then
    rmInsertChecks ((jsOr (getFlag flags "collection") pos[0]?).getD "")
      flags pos now b
  else
    (⟨1, false, ["Error: Collection name is required"], 0, 0, [], []⟩, b)

/-- One invocation of `run-mongo.js`: `argv` is `process.argv.slice(2)`,
`now` is the value `new Date().toISOString()` would produce, `b` the
backend state. -/
def runMongo (argv : List String) (now : String) (b : Backend) :
    Outcome × Backend :=
  if truthyS (getFlag (flagsOf argv) "help") then
    (⟨0, true, [], 0, 0, [], []⟩, b)
  else
    rmWithFlags (flagsOf argv) (positionalsOf argv) now b

/-! ## The index-capable variant (src/unnamed/part_003, first section)

Raw flags are read without alias resolution, via `||` fallbacks:
`query || q`, `project || p`, `sort || s`, `limit || l`,
`flags["create-index"] || flags.c`, `flags["index-options"] || flags.o`
(lines 37–42).  Projection, sort and limit are computed — including their
`JSON.parse` — before the collection check and before connecting, so a
parse failure there is an uncaught exception with nothing opened.  Inside
the `try` block (lines 58–81): `createIndex` runs when its flag is
truthy; then `insert` runs when its flag is truthy; otherwise `find` runs
only when `createIndex` was falsy.  There is no `process.exit` inside
this `try`, so every exception reaches the `finally` and the connection
is released. -/

/-- The `try` body of the index-capable variant, after `connect()`.
`reqs`/`outs` accumulate the requests already issued. -/
def idxPhase2 (coll : String) (insertS : Option String) (ciTruthy : Bool)
    (query : String) (pj : Json) (sj : Option Json) (lim : Rat)
    (now : String) (b : Backend) (reqs : List Req) (outs : List Out) :
    Outcome × Backend :=
  match insertS with
  | some is =>
    match jsonParse is with
    | none => (⟨1, false, ["SyntaxError: invalid JSON"], 1, 1, reqs, outs⟩, b)
    | some j =>
      let d := spreadCreatedAt (objFields j) now
      let (b2, id) := b.insertDoc coll d
      (⟨0, false, [], 1, 1, reqs ++ [Req.insertR coll d],
        outs ++ [Out.ackId id]⟩, b2)
  | none =>
    if ciTruthy then (⟨0, false, [], 1, 1, reqs, outs⟩, b)
    else
      match jsonParse query with
      | none => (⟨1, false, ["SyntaxError: invalid JSON"], 1, 1, reqs, outs⟩, b)
      | some qj =>
        (⟨0, false, [], 1, 1, reqs ++ [Req.findR coll qj pj sj lim],
          outs ++ [Out.docs (b.findDocs coll lim.floor.toNat)]⟩, b)

/-- The createIndex phase (lines 62–67) followed by the insert/find
phase. -/
def idxBody (coll : String) (ci : Option String) (insertS : Option String)
    (opts : Option String) (query : String) (pj : Json) (sj : Option Json)
    (lim : Rat) (now : String) (b : Backend) : Outcome × Backend :=
  match ci with
  | some cs =>
    match jsonParse cs with
    | none => (⟨1, false, ["SyntaxError: invalid JSON"], 1, 1, [], []⟩, b)
    | some spec =>
      match (match opts with
             | some os => jsonParse os
             | none => some (Json.obj [])) with
      | none => (⟨1, false, ["SyntaxError: invalid JSON"], 1, 1, [], []⟩, b)
      | some oj =>
        idxPhase2 coll insertS true query pj sj lim now b
          [Req.indexR coll spec oj] [Out.ackIndex (indexNameOf spec)]
  | none => idxPhase2 coll insertS false query pj sj lim now b [] []

/-- The effective (truthy-filtered) value of `a || b` used in a JS
`if`-condition and then as the operand itself. -/
def effOr (a b : Option String) : Option String :=
  if truthyS (jsOr a b) then jsOr a b else none

def idxFlags (argv : List String) : Flags := (parseArgsDoc argv).1

def idxPos (argv : List String) : List String := (parseArgsDoc argv).2

/-- `flags.query || flags.q || "\x7b\x7d"` (line 38). -/
def idxQueryStr (argv : List String) : String :=
  jsOrDefault (getFlag (idxFlags argv) "query") (getFlag (idxFlags argv) "q")
    emptyObjStr

/-- `flags.project || flags.p` (line 39). -/
def idxProjEff (argv : List String) : Option String :=
  jsOr (getFlag (idxFlags argv) "project") (getFlag (idxFlags argv) "p")

/-- `flags.sort || flags.s` (line 40). -/
def idxSortEff (argv : List String) : Option String :=
  jsOr (getFlag (idxFlags argv) "sort") (getFlag (idxFlags argv) "s")

/-- `flags.limit || flags.l` (line 41). -/
def idxLimEff (argv : List String) : Option String :=
  jsOr (getFlag (idxFlags argv) "limit") (getFlag (idxFlags argv) "l")

/-- `flags["create-index"] || flags.c` (line 42), truthy-filtered as the
script's `if (createIndex)` checks do. -/
def idxCreateIndexEff (argv : List String) : Option String :=
  effOr (getFlag (idxFlags argv) "create-index") (getFlag (idxFlags argv) "c")

/-- `flags.insert || flags.i` (line 69), truthy-filtered. -/
def idxInsertEff (argv : List String) : Option String :=
  effOr (getFlag (idxFlags argv) "insert") (getFlag (idxFlags argv) "i")

/-- `flags["index-options"] || flags.o` (line 43). -/
def idxOptsEff (argv : List String) : Option String :=
  jsOr (getFlag (idxFlags argv) "index-options") (getFlag (idxFlags argv) "o")

/-- One invocation of the index-capable variant. -/
def runMongoIdx (argv : List String) (now : String) (b : Backend) :
    Outcome × Backend :=
  match (if truthyS (idxProjEff argv) then jsonParse ((idxProjEff argv).getD "")
         else jsonParse emptyObjStr) with
  | none => (⟨1, false, ["SyntaxError: invalid JSON"], 0, 0, [], []⟩, b)
  | some pj =>
    match (if truthyS (idxSortEff argv) then
             (jsonParse ((idxSortEff argv).getD "")).map some
           else some none) with
    | none => (⟨1, false, ["SyntaxError: invalid JSON"], 0, 0, [], []⟩, b)
    | some sj =>
      if ¬ truthyS (idxPos argv)[0]? then
        (⟨1, false, ["Usage: node run-mongo.js"], 0, 0, [], []⟩, b)
      else if truthyS (idxOptsEff argv) ∧ idxCreateIndexEff argv = none then
        (⟨1, false, ["Error: --index-options requires --create-index"],
          0, 0, [], []⟩, b)
      else
        idxBody ((idxPos argv)[0]?.getD "") (idxCreateIndexEff argv)
          (idxInsertEff argv)
          (if truthyS (idxOptsEff argv) then idxOptsEff argv else none)
          (idxQueryStr argv) pj sj
          (if truthyS (idxLimEff argv) then
            (jsNumber ((idxLimEff argv).getD "")).getD 0
           else 50) now b

/-! ## The legacy variant (src/unnamed/part_003, last section)

`const [collectionArg, queryArg = "\x7b\x7d", projArg = "\x7b\x7d"] =
process.argv.slice(2)` — destructuring defaults apply only on
`undefined`, not on the empty string.  When the parsed query has no own
keys, the script creates an index (errors ignored) and inserts a sample
document before the find, so a find on an empty query writes to the
backend.  No `process.exit` inside the `try`: exceptions reach the
`finally` and the connection is released. -/

/-- Model of `Object.keys(v).length`; `none` models the `TypeError`
thrown by `Object.keys(null)`. -/
def jsonKeysLen : Json → Option Nat
  | Json.null => none
  | Json.obj fs => some fs.length
  | Json.arr xs => some xs.length
  | Json.str s => some s.data.length
  | _ => some 0

/-- One invocation of the legacy variant. -/
def runMongoLegacy (argv : List String) (now : String) (b : Backend) :
    Outcome × Backend :=
  let queryArg := match argv[1]? with | some s => s | none => emptyObjStr
  let projArg := match argv[2]? with | some s => s | none => emptyObjStr
  if ¬ truthyS argv[0]? then
    (⟨1, false, ["Usage: node run-mongo.js"], 0, 0, [], []⟩, b)
  else
    let coll := argv[0]?.getD ""
    match jsonParse queryArg with
    | none => (⟨1, false, ["SyntaxError: invalid JSON"], 1, 1, [], []⟩, b)
    | some qj =>
      match jsonParse projArg with
      | none => (⟨1, false, ["SyntaxError: invalid JSON"], 1, 1, [], []⟩, b)
      | some pj =>
        match jsonKeysLen qj with
        | none => (⟨1, false, ["TypeError"], 1, 1, [], []⟩, b)
        | some n =>
          if n = 0 then
            let d : Doc := [("hello", Json.str "world"),
                            ("created_at", Json.str now)]
            let (b2, _) := b.insertDoc coll d
            (⟨0, false, [], 1, 1,
              [Req.indexR coll (Json.obj [("created_at", Json.num (-1))])
                 (Json.obj []),
               Req.insertR coll d,
               Req.findR coll qj pj none 50],
              [Out.docs (b2.findDocs coll 50)]⟩, b2)
          else
            (⟨0, false, [], 1, 1, [Req.findR coll qj pj none 50],
              [Out.docs (b.findDocs coll 50)]⟩, b)

/-! ## Helper lemmas about the object operations -/

theorem getFlag_aliasStep (fl : Flags) (s l k : String) :
    getFlag (aliasStep fl (s, l)) k =
      if s = k then none
      else if l = k then (getFlag fl s).or (getFlag fl l)
      else getFlag fl k := by
  unfold aliasStep
  cases h : getFlag fl s with
  | none =>
    by_cases h1 : s = k
    · subst h1; simp [h]
    · by_cases h2 : l = k <;> simp [h1, h2, h]
  | some v =>
    simp only [getFlag_delFlag, getFlag_setFlag]
    by_cases h1 : s = k
    · simp [h1]
    · by_cases h2 : l = k <;> simp [h1, h2, h]

theorem lookupField_setField_same (d : Doc) (k : String) (v : Json) :
    lookupField (setField d k v) k = some v := by
  induction d with
  | nil => simp [setField, lookupField]
  | cons kv0 rest ih =>
    obtain ⟨k0, v0⟩ := kv0
    by_cases h : k0 = k
    · subst h; simp [setField, lookupField]
    · simp [setField, h, lookupField, ih]

theorem setField_filter_ne (d : Doc) (k : String) (v : Json) :
    (setField d k v).filter (fun kv => kv.1 ≠ k) =
      d.filter (fun kv => kv.1 ≠ k) := by
  induction d with
  | nil => simp [setField]
  | cons kv0 rest ih =>
    obtain ⟨k0, v0⟩ := kv0
    by_cases h : k0 = k
    · subst h; simp [setField, List.filter_cons]
    · simp only [setField, if_neg h, List.filter_cons, ne_eq, decide_not] at ih ⊢
      simp [h, ih]

theorem setField_keys (d : Doc) (k : String) (v : Json) :
    (setField d k v).map Prod.fst =
      (if k ∈ d.map Prod.fst then d.map Prod.fst
       else d.map Prod.fst ++ [k]) := by
  induction d with
  | nil => simp [setField]
  | cons kv0 rest ih =>
    obtain ⟨k0, v0⟩ := kv0
    by_cases h : k0 = k
    · subst h; simp [setField]
    · simp only [setField, if_neg h, List.map_cons, ih]
      by_cases h2 : k ∈ rest.map Prod.fst
      · simp [h2, List.mem_cons, Ne.symm h]
      · simp [h2, List.mem_cons, Ne.symm h, fun hh : k = k0 => h hh.symm]


/-! ## The claims -/

/-- C1: the spec's cleanup invariant — the connection-release routine runs
exactly once on every exit path — is the code's evident intent (the whole
body sits in `try`/`finally`), but `process.exit(1)` in the JSON-error
handlers inside the `try` terminates Node without running the `finally`:
on a malformed-JSON find after a successful connect, `client.close()` is
never invoked (connection opened once, released zero times, exit 1). -/
theorem payload_error_skips_close :
    jsonParse "\x7b" = none ∧
    (runMongo ["users", "--query", "\x7b"] "T" emptyBackend).1.connectCount = 1 ∧
    (runMongo ["users", "--query", "\x7b"] "T" emptyBackend).1.closeCount = 0 ∧
    (runMongo ["users", "--query", "\x7b"] "T" emptyBackend).1.exitCode = 1 :=
  ⟨rfl, rfl, rfl, rfl⟩

/-- C2 counterexample: a malformed query JSON does not fail "without
opening a backend connection" — run-mongo.js connects (line 150) before
parsing any JSON payload, so the connection is opened exactly once. -/
theorem malformed_json_connects_counterexample :
    jsonParse "\x7bbad" = none ∧
    (runMongo ["users", "-q", "\x7bbad"] "T" emptyBackend).1.connectCount = 1 ∧
    (runMongo ["users", "-q", "\x7bbad"] "T" emptyBackend).1.exitCode = 1 :=
  ⟨rfl, rfl, rfl⟩

/-- C2 (amended): for every invocation that passes pre-connection
validation and in which any JSON-bearing flag is malformed — the insert
payload in insert mode; the effective query, the effective projection, or
a truthy sort flag in find mode, whether the limit flag is absent/falsy
or supplied and valid — the process terminates with a descriptive message
on standard error and a non-zero exit code, but only after the backend
connection has been opened — and, because of the `process.exit` inside
the `try`, without releasing it. -/
theorem malformed_json_fails_after_connect (argv : List String) (now : String)
    (b : Backend) (ins : String)
    (hhelp : truthyS (getFlag (flagsOf argv) "help") = false)
    (hcol : truthyS (jsOr (getFlag (flagsOf argv) "collection")
      (positionalsOf argv)[0]?) = true)
    (hcase :
      (getFlag (flagsOf argv) "insert" = some ins ∧
        (["query", "project", "sort", "limit"].filter
          (fun f => (getFlag (flagsOf argv) f).isSome)) = [] ∧
        (positionalsOf argv).length ≤ 1 ∧
        jsonParse ins = none) ∨
      (getFlag (flagsOf argv) "insert" = none ∧
        (truthyS (getFlag (flagsOf argv) "limit") = false ∨
          (∃ q, jsNumber ((getFlag (flagsOf argv) "limit").getD "") = some q ∧
            ¬ q < 1)) ∧
        (jsonParse (jsOrDefault (getFlag (flagsOf argv) "query")
            (positionalsOf argv)[1]? emptyObjStr) = none ∨
          (∃ qj, jsonParse (jsOrDefault (getFlag (flagsOf argv) "query")
              (positionalsOf argv)[1]? emptyObjStr) = some qj ∧
            jsonParse (jsOrDefault (getFlag (flagsOf argv) "project")
              (positionalsOf argv)[2]? emptyObjStr) = none) ∨
          (∃ qj pj, jsonParse (jsOrDefault (getFlag (flagsOf argv) "query")
              (positionalsOf argv)[1]? emptyObjStr) = some qj ∧
            jsonParse (jsOrDefault (getFlag (flagsOf argv) "project")
              (positionalsOf argv)[2]? emptyObjStr) = some pj ∧
            truthyS (getFlag (flagsOf argv) "sort") = true ∧
            jsonParse ((getFlag (flagsOf argv) "sort").getD "") = none)))) :
    (runMongo argv now b).1.exitCode = 1 ∧
    (runMongo argv now b).1.stderrMsgs ≠ [] ∧
    (runMongo argv now b).1.connectCount = 1 ∧
    (runMongo argv now b).1.closeCount = 0 := by
  rcases hcase with ⟨hins, hinc, hpos, hj⟩ | ⟨hins, hlimOk, hjson⟩
  · have hnot : ¬ (positionalsOf argv).length > 1 := by omega
    unfold runMongo rmWithFlags rmInsertChecks rmValidated rmBody
    simp [hhelp, hcol, hins, hinc, hnot, hj]
  · unfold runMongo rmWithFlags rmInsertChecks rmValidated rmFindParams rmBody
    cases htr : truthyS (getFlag (flagsOf argv) "limit") with
    | false =>
      rcases hjson with hq | ⟨qj, hq, hp⟩ | ⟨qj, pj, hq, hp, hst, hsp⟩
      · simp [hhelp, hcol, hins, htr, hq]
      · simp [hhelp, hcol, hins, htr, hq, hp]
      · rcases hgf : getFlag (flagsOf argv) "sort" with _ | s
        · rw [hgf] at hst
          simp [truthyS] at hst
        · have hs : s ≠ "" := by
            rw [hgf] at hst
            simpa [truthyS] using hst
          rw [hgf] at hsp
          simp only [Option.getD_some] at hsp
          have hstr : truthyS (some s) = true := by simp [truthyS, hs]
          simp [hhelp, hcol, hins, htr, hq, hp, hgf, hstr, hsp]
    | true =>
      rcases hlimOk with hfal | ⟨q, hnum, hq1⟩
      · rw [hfal] at htr
        cases htr
      · rcases hjson with hq | ⟨qj, hq, hp⟩ | ⟨qj, pj, hq, hp, hst, hsp⟩
        · simp [hhelp, hcol, hins, htr, hnum, hq1, hq]
        · simp [hhelp, hcol, hins, htr, hnum, hq1, hq, hp]
        · rcases hgf : getFlag (flagsOf argv) "sort" with _ | s
          · rw [hgf] at hst
            simp [truthyS] at hst
          · have hs : s ≠ "" := by
              rw [hgf] at hst
              simpa [truthyS] using hst
            rw [hgf] at hsp
            simp only [Option.getD_some] at hsp
            have hstr : truthyS (some s) = true := by simp [truthyS, hs]
            simp [hhelp, hcol, hins, htr, hnum, hq1, hq, hp, hgf, hstr, hsp]

/-- C2 witness: a malformed query together with a supplied, valid
`--limit 5` — a case where the JSON error is reached in find mode with a
truthy limit. -/
theorem malformed_json_fails_after_connect_witness :
    (runMongo ["users", "-q", "\x7bnope", "--limit", "5"] "T"
        emptyBackend).1.exitCode = 1 ∧
    (runMongo ["users", "-q", "\x7bnope", "--limit", "5"] "T"
        emptyBackend).1.stderrMsgs ≠ [] ∧
    (runMongo ["users", "-q", "\x7bnope", "--limit", "5"] "T"
        emptyBackend).1.connectCount = 1 ∧
    (runMongo ["users", "-q", "\x7bnope", "--limit", "5"] "T"
        emptyBackend).1.closeCount = 0 :=
  malformed_json_fails_after_connect ["users", "-q", "\x7bnope", "--limit", "5"]
    "T" emptyBackend "" rfl rfl
    (Or.inr ⟨rfl, Or.inr ⟨5, by decide, by norm_num⟩, Or.inl rfl⟩)

/-- C3 counterexample: with `-q A --query B`, the resolved query value is
`"A"` (the short form's), not `"B"` (the long form's), refuting
"the long form's value is the one used in the resulting request". -/
theorem alias_short_wins_counterexample :
    getFlag (flagsOf ["-q", "A", "--query", "B", "users"]) "query" = some "A" ∧
    ("A" : String) ≠ "B" := by
  refine ⟨rfl, by decide⟩

/-- C3 (amended): every short alias among c, q, p, s, l, i, h resolves to
its long form and the short key is deleted; when both short and long
forms are supplied, the SHORT form's value is the one used, because the
loop assigns `flags[long] = flags[short]`.  (run-mongo.js has no `o`
alias; `o` → index-options exists only in the index-capable variant,
read through a long-wins `||` fallback.) -/
theorem alias_short_overwrites_long (argv : List String) (p : String × String)
    (hp : p ∈ aliasPairs) :
    getFlag (flagsOf argv) p.1 = none ∧
    getFlag (flagsOf argv) p.2 =
      (getFlag (rawFlagsOf argv) p.1).or (getFlag (rawFlagsOf argv) p.2) := by
  fin_cases hp <;>
    constructor <;>
      simp [flagsOf, rawFlagsOf, resolveAliases, aliasPairs, List.foldl_cons,
        List.foldl_nil, getFlag_aliasStep]

/-- C3 witness. -/
theorem alias_short_overwrites_long_witness :
    getFlag (flagsOf ["-q", "A", "--query", "B", "users"]) "q" = none ∧
    getFlag (flagsOf ["-q", "A", "--query", "B", "users"]) "query" =
      (getFlag (rawFlagsOf ["-q", "A", "--query", "B", "users"]) "q").or
        (getFlag (rawFlagsOf ["-q", "A", "--query", "B", "users"]) "query") :=
  alias_short_overwrites_long ["-q", "A", "--query", "B", "users"]
    ("q", "query") (by decide)

/-- C4 counterexample: `--limit=` supplies the empty string as the limit
value; `Number("")` is `0`, a non-positive limit, yet run-mongo.js treats
the falsy string as absent, silently defaults to 50, connects, and exits
0 — so not every non-numeric-or-non-positive limit is rejected. -/
theorem empty_limit_counterexample :
    getFlag (flagsOf ["users", "--limit="]) "limit" = some "" ∧
    jsNumber "" = some 0 ∧ (0 : Rat) < 1 ∧
    (runMongo ["users", "--limit="] "T" emptyBackend).1.connectCount = 1 ∧
    (runMongo ["users", "--limit="] "T" emptyBackend).1.exitCode = 0 := by
  refine ⟨rfl, rfl, by norm_num, rfl, rfl⟩

/-- C4 (amended): a missing collection, an insert combined with any of
query/project/sort/limit, or a supplied NON-EMPTY limit value that is
non-numeric (`NaN`) or < 1, each makes the process print to standard
error and exit 1 before any backend connection is constructed.  (An
empty limit value, as in `--limit=`, is falsy and is treated as absent,
defaulting to 50.) -/
theorem pre_connect_validation (argv : List String) (now : String) (b : Backend)
    (hhelp : truthyS (getFlag (flagsOf argv) "help") = false)
    (hcase :
      truthyS (jsOr (getFlag (flagsOf argv) "collection")
        (positionalsOf argv)[0]?) = false ∨
      (truthyS (jsOr (getFlag (flagsOf argv) "collection")
         (positionalsOf argv)[0]?) = true ∧
       (getFlag (flagsOf argv) "insert").isSome = true ∧
       (["query", "project", "sort", "limit"].filter
         (fun f => (getFlag (flagsOf argv) f).isSome)) ≠ []) ∨
      (truthyS (jsOr (getFlag (flagsOf argv) "collection")
         (positionalsOf argv)[0]?) = true ∧
       getFlag (flagsOf argv) "insert" = none ∧
       ∃ ls, getFlag (flagsOf argv) "limit" = some ls ∧ ls ≠ "" ∧
         (jsNumber ls = none ∨ ∃ q, jsNumber ls = some q ∧ q < 1))) :
    (runMongo argv now b).1.exitCode = 1 ∧
    (runMongo argv now b).1.stderrMsgs ≠ [] ∧
    (runMongo argv now b).1.connectCount = 0 ∧
    (runMongo argv now b).1.closeCount = 0 := by
  rcases hcase with hcol | ⟨hcol, hins, hinc⟩ | ⟨hcol, hins, ls, hls, hlne, hbad⟩
  · unfold runMongo rmWithFlags
    simp [hhelp, hcol]
  · unfold runMongo rmWithFlags rmInsertChecks
    simp [hhelp, hcol, hins, hinc]
  · have htr : truthyS (getFlag (flagsOf argv) "limit") = true := by
      rw [hls]; simpa [truthyS] using hlne
    have hgd : (getFlag (flagsOf argv) "limit").getD "" = ls := by rw [hls]; rfl
    unfold runMongo rmWithFlags rmInsertChecks rmValidated rmFindParams
    rcases hbad with hnan | ⟨q, hq, hq1⟩
    · simp [hhelp, hcol, hins, htr, hgd, hnan]
    · simp [hhelp, hcol, hins, htr, hgd, hq, hq1]

/-- C4 witness. -/
theorem pre_connect_validation_witness :
    (runMongo [] "T" emptyBackend).1.exitCode = 1 ∧
    (runMongo [] "T" emptyBackend).1.stderrMsgs ≠ [] ∧
    (runMongo [] "T" emptyBackend).1.connectCount = 0 ∧
    (runMongo [] "T" emptyBackend).1.closeCount = 0 :=
  pre_connect_validation [] "T" emptyBackend rfl (Or.inl rfl)

/-- C5 counterexample: on `["-q", ""]` the docdb-variant tokenizer
deviates from the claimed rule: the next token exists and does not start
with `-`, but it is not consumed (it is falsy); the flag becomes `"true"`
and the empty string becomes a positional. -/
theorem docdb_empty_token_counterexample :
    parseArgsDoc ["-q", ""] = ([("q", "true")], [""]) ∧
    parseSpec ["-q", ""] [] = ([("q", "")], []) ∧
    parseArgsDoc ["-q", ""] ≠ parseSpec ["-q", ""] [] := by
  refine ⟨rfl, rfl, ?_⟩
  decide

/-- C5 (amended): the run-mongo.js tokenizer follows the claimed rules on
every argv — split at the first `=` with leading dashes stripped from the
key, consume-next for `=`-less flags, `"true"` sentinel otherwise,
positionals collected in scan order (it equals the spec-level parser);
the docdb-variant tokenizer follows them with one amendment: a flag token
without `=` consumes the next token only when it exists, is non-empty,
and does not start with `-` (JS truthiness of `nextArg`). -/
theorem tokenizer_matches_spec (argv : List String) :
    parseArgs argv = parseSpec argv [] ∧
    parseArgsDoc argv = parseSpecDoc argv [] := by
  constructor
  · unfold parseArgs
    rw [parseArgsGo_eq_spec]
    simp
  · unfold parseArgsDoc
    rw [parseDocGo_eq_spec]
    simp

/-- C6 counterexample: with both `--create-index` and `--insert` present,
the index-capable variant issues both requests in a single invocation —
CreateIndex is not mutually exclusive with Insert. -/
theorem create_index_with_insert_counterexample :
    ((runMongoIdx ["users", "--create-index", "\x7b\"a\":1\x7d",
        "--insert", "\x7b\"n\":2\x7d"] "T" emptyBackend).1.requests.map
      Req.kind) = [ReqKind.createIndex, ReqKind.insert] := rfl

/-- C6 (amended): CreateIndex is mutually exclusive with Find — whenever
the create-index flag is truthy, no find request is ever issued — but not
with Insert: both an index-creation and an insert are issued when both
flags are given.  When insert is absent and the invocation is otherwise
plain, exactly the index-creation request is issued and the result is an
acknowledgment carrying the created index's name. -/
theorem create_index_excludes_find (argv : List String) (now : String)
    (b : Backend) (cs : String) (sj : Json)
    (hci : idxCreateIndexEff argv = some cs) :
    ReqKind.find ∉ ((runMongoIdx argv now b).1.requests.map Req.kind) ∧
    (jsonParse cs = some sj → idxInsertEff argv = none →
     truthyS (idxOptsEff argv) = false →
     truthyS (idxPos argv)[0]? = true →
     truthyS (idxProjEff argv) = false → truthyS (idxSortEff argv) = false →
       (runMongoIdx argv now b).1.requests =
         [Req.indexR ((idxPos argv)[0]?.getD "") sj (Json.obj [])] ∧
       (runMongoIdx argv now b).1.outputs = [Out.ackIndex (indexNameOf sj)]) := by
  constructor
  · unfold runMongoIdx idxBody idxPhase2
    rw [hci]
    repeat' split
    all_goals simp_all [Req.kind]
  · intro hsj hinsert hio hpos hproj hsort
    unfold runMongoIdx idxBody idxPhase2
    rw [hci]
    simp [hsj, hinsert, hio, hpos, hproj, hsort]
    exact ⟨rfl, rfl⟩

/-- C6 witness. -/
theorem create_index_excludes_find_witness :
    ReqKind.find ∉ ((runMongoIdx ["users", "--create-index", "\x7b\"a\":1\x7d"]
        "T" emptyBackend).1.requests.map Req.kind) ∧
    (runMongoIdx ["users", "--create-index", "\x7b\"a\":1\x7d"] "T"
        emptyBackend).1.requests =
      [Req.indexR "users" (Json.obj [("a", Json.num 1)]) (Json.obj [])] ∧
    (runMongoIdx ["users", "--create-index", "\x7b\"a\":1\x7d"] "T"
        emptyBackend).1.outputs = [Out.ackIndex "a"] := by
  have h := create_index_excludes_find ["users", "--create-index",
    "\x7b\"a\":1\x7d"] "T" emptyBackend "\x7b\"a\":1\x7d"
    (Json.obj [("a", Json.num 1)]) rfl
  exact ⟨h.1, (h.2 rfl rfl rfl rfl rfl rfl).1, (h.2 rfl rfl rfl rfl rfl rfl).2⟩

/-- C7 counterexample: in the legacy variant, a find with an empty query
first creates an index and inserts a sample document — a write — so two
identical invocations against the initially empty backend return one,
then two documents: the backend does not remain unchanged and the results
differ. -/
theorem legacy_find_inserts_counterexample :
    ((runMongoLegacy ["users"] "T1" emptyBackend).1.requests.map Req.kind) =
      [ReqKind.createIndex, ReqKind.insert, ReqKind.find] ∧
    ((runMongoLegacy ["users"] "T1" emptyBackend).1.outputs.map Out.docCount) =
      [1] ∧
    ((runMongoLegacy ["users"] "T2"
        (runMongoLegacy ["users"] "T1" emptyBackend).2).1.outputs.map
      Out.docCount) = [2] :=
  ⟨rfl, rfl, rfl⟩

/-- C7 (amended): in run-mongo.js, any invocation without the insert flag
performs no writes — the backend state is returned unchanged — and hence
running the same invocation again on the resulting state produces an
identical outcome.  (The legacy variant violates this: its find inserts a
sample document when the query is empty, see the counterexample.) -/
theorem runMongo_find_no_writes (argv : List String) (now now2 : String)
    (b : Backend) (h : getFlag (flagsOf argv) "insert" = none) :
    (runMongo argv now b).2 = b ∧
    runMongo argv now2 ((runMongo argv now b).2) = runMongo argv now2 b := by
  have hb : (runMongo argv now b).2 = b := by
    unfold runMongo rmWithFlags rmInsertChecks rmValidated rmFindParams rmBody rmFind
    rw [h]
    simp only [Option.isSome_none, Bool.false_eq_true, if_false, ite_false]
    repeat' split
    all_goals rfl
  exact ⟨hb, by rw [hb]⟩

/-- C7 witness. -/
theorem runMongo_find_no_writes_witness :
    (runMongo ["users"] "T" emptyBackend).2 = emptyBackend ∧
    runMongo ["users"] "T2" ((runMongo ["users"] "T" emptyBackend).2) =
      runMongo ["users"] "T2" emptyBackend :=
  runMongo_find_no_writes ["users"] "T" "T2" emptyBackend rfl

/-- C8 counterexample: `["-h", ""]` contains the help flag, yet usage is
not shown — the empty next token is consumed as the flag's value, which
is falsy — and the process exits 1 (missing collection) instead of 0. -/
theorem help_empty_value_counterexample :
    getFlag (flagsOf ["-h", ""]) "help" = some "" ∧
    (runMongo ["-h", ""] "T" emptyBackend).1.helpShown = false ∧
    (runMongo ["-h", ""] "T" emptyBackend).1.exitCode = 1 := ⟨rfl, rfl, rfl⟩

/-- C8 (amended): for every argv whose resolved help-flag value is a
non-empty (truthy) string — which covers every ordinary occurrence of
`-h`/`--help` — usage goes to standard output, the process exits 0, and
no backend connection or request is made.  (An `-h`/`--help` immediately
followed by an empty-string token resolves to `""`, which is falsy and
does not short-circuit.) -/
theorem help_short_circuits (argv : List String) (now : String) (b : Backend)
    (s : String) (h : getFlag (flagsOf argv) "help" = some s) (hs : s ≠ "") :
    (runMongo argv now b).1.exitCode = 0 ∧
    (runMongo argv now b).1.helpShown = true ∧
    (runMongo argv now b).1.connectCount = 0 ∧
    (runMongo argv now b).1.requests = [] ∧
    (runMongo argv now b).2 = b := by
  have ht : truthyS (getFlag (flagsOf argv) "help") = true := by
    rw [h]; simpa [truthyS] using hs
  simp [runMongo, ht]

/-- C8 witness. -/
theorem help_short_circuits_witness :
    (runMongo ["--help"] "T" emptyBackend).1.exitCode = 0 ∧
    (runMongo ["--help"] "T" emptyBackend).1.helpShown = true ∧
    (runMongo ["--help"] "T" emptyBackend).1.connectCount = 0 ∧
    (runMongo ["--help"] "T" emptyBackend).1.requests = [] ∧
    (runMongo ["--help"] "T" emptyBackend).2 = emptyBackend :=
  help_short_circuits ["--help"] "T" emptyBackend "true" rfl (by decide)

/-- C9 counterexample: a caller-supplied `created_at: null` is not kept —
the `??` operator replaces `null` by the fresh timestamp. -/
theorem insert_null_created_at_counterexample :
    jsonParse "\x7b\"created_at\":null\x7d" =
      some (Json.obj [("created_at", Json.null)]) ∧
    (runMongo ["-c", "users", "--insert", "\x7b\"created_at\":null\x7d"]
        "T" emptyBackend).1.requests =
      [Req.insertR "users" [("created_at", Json.str "T")]] ∧
    Json.str "T" ≠ Json.null := by
  refine ⟨rfl, rfl, ?_⟩
  intro h
  exact Json.noConfusion h

/-- C9 (amended): a well-formed DocumentInsert invocation forwards the
payload as a single insert request; `created_at` holding the wall-clock
string is injected when the payload omits it OR sets it to `null`
(nullish coalescing) — any other caller-supplied value is kept — and the
result is a single acknowledgment carrying the assigned identifier. -/
theorem insert_forwards_payload (argv : List String) (now : String)
    (b : Backend) (ins : String) (fields : Doc)
    (hhelp : truthyS (getFlag (flagsOf argv) "help") = false)
    (hcol : truthyS (jsOr (getFlag (flagsOf argv) "collection")
      (positionalsOf argv)[0]?) = true)
    (hins : getFlag (flagsOf argv) "insert" = some ins)
    (hinc : (["query", "project", "sort", "limit"].filter
      (fun f => (getFlag (flagsOf argv) f).isSome)) = [])
    (hpos : (positionalsOf argv).length ≤ 1)
    (hj : jsonParse ins = some (Json.obj fields)) :
    (runMongo argv now b).1.requests =
      [Req.insertR
        ((jsOr (getFlag (flagsOf argv) "collection")
          (positionalsOf argv)[0]?).getD "")
        (spreadCreatedAt fields now)] ∧
    (runMongo argv now b).1.outputs = [Out.ackId b.nextId] ∧
    (runMongo argv now b).1.exitCode = 0 ∧
    (runMongo argv now b).1.connectCount = 1 ∧
    (runMongo argv now b).1.closeCount = 1 ∧
    lookupField (spreadCreatedAt fields now) "created_at" =
      some (match lookupField fields "created_at" with
            | none => Json.str now
            | some Json.null => Json.str now
            | some v => v) := by
  have hnot : ¬ (positionalsOf argv).length > 1 := by omega
  unfold runMongo rmWithFlags rmInsertChecks rmValidated rmBody
  simp [hhelp, hcol, hins, hinc, hnot, hj, objFields, Backend.insertDoc]
  exact lookupField_setField_same fields "created_at" _

/-- C9 witness. -/
theorem insert_forwards_payload_witness :
    (runMongo ["-c", "users", "--insert", "\x7b\"a\":1\x7d"] "T"
        emptyBackend).1.requests =
      [Req.insertR
        ((jsOr (getFlag (flagsOf ["-c", "users", "--insert", "\x7b\"a\":1\x7d"])
            "collection")
          (positionalsOf ["-c", "users", "--insert", "\x7b\"a\":1\x7d"])[0]?).getD "")
        (spreadCreatedAt [("a", Json.num 1)] "T")] ∧
    (runMongo ["-c", "users", "--insert", "\x7b\"a\":1\x7d"] "T"
        emptyBackend).1.outputs = [Out.ackId emptyBackend.nextId] ∧
    (runMongo ["-c", "users", "--insert", "\x7b\"a\":1\x7d"] "T"
        emptyBackend).1.exitCode = 0 ∧
    (runMongo ["-c", "users", "--insert", "\x7b\"a\":1\x7d"] "T"
        emptyBackend).1.connectCount = 1 ∧
    (runMongo ["-c", "users", "--insert", "\x7b\"a\":1\x7d"] "T"
        emptyBackend).1.closeCount = 1 ∧
    lookupField (spreadCreatedAt [("a", Json.num 1)] "T") "created_at" =
      some (match lookupField [("a", Json.num 1)] "created_at" with
            | none => Json.str "T"
            | some Json.null => Json.str "T"
            | some v => v) :=
  insert_forwards_payload ["-c", "users", "--insert", "\x7b\"a\":1\x7d"] "T"
    emptyBackend "\x7b\"a\":1\x7d" [("a", Json.num 1)] rfl rfl rfl rfl
    (by decide) rfl

/-- C10: on DocumentInsert, every field of the parsed payload other than
`created_at` is forwarded unchanged (same keys, same values, same order —
stated as equality of the `created_at`-free projections and of the key
list); `created_at` is replaced by the fresh timestamp exactly when it is
absent or `null`, and is preserved for every other value (including
`false`, `0` and the empty string), because the nullish-coalescing
operator is used. -/
theorem spread_created_at_frame (fields : Doc) (now : String) :
    (spreadCreatedAt fields now).filter (fun kv => kv.1 ≠ "created_at") =
      fields.filter (fun kv => kv.1 ≠ "created_at") ∧
    (spreadCreatedAt fields now).map Prod.fst =
      (if "created_at" ∈ fields.map Prod.fst then fields.map Prod.fst
       else fields.map Prod.fst ++ ["created_at"]) ∧
    lookupField (spreadCreatedAt fields now) "created_at" =
      some (match lookupField fields "created_at" with
            | none => Json.str now
            | some Json.null => Json.str now
            | some v => v) :=
  ⟨setField_filter_ne fields "created_at" _,
   setField_keys fields "created_at" _,
   lookupField_setField_same fields "created_at" _⟩

end PgGraphDoc
